import Mathlib

/-!
Verification of the Secure Shared Folder delivery service (DS) server:
a shallow embedding of the relevant parts of `src/services/ds` (`db.rs`,
`server.rs`, `storage.rs`) together with theorems about the embedded
operations.  The MySQL tables of §6.3 of the design document are modelled
as lists inside a `DbState` record; every db function that runs inside a
transaction becomes a pure function from `DbState` to a result together
with the committed `DbState` (early returns before `commit` roll back, so
those paths return the original state).
-/

/-- Row of the `pending_group_messages` table (struct `PendingGroupMessageEntity`
in `db.rs`).  `user_email` is the recipient of the message, `creator` the
member that published it.  Payloads are byte strings, modelled as `List Nat`. -/
structure PendingGroupMessageEntity where
  message_id : Nat
  folder_id : Nat
  user_email : String
  payload : List Nat
  creator : String
deriving DecidableEq

/-- Row of the `application_messages` table (schema §6.3: `message_id` is the
primary key, `payload` the application payload bytes). -/
structure ApplicationMessageRow where
  message_id : Nat
  payload : List Nat
deriving DecidableEq

/-- Row of the `key_packages` table (struct `KeyPackageEntity` in `db.rs`). -/
structure KeyPackageEntity where
  key_package_id : Nat
  user_email : String
  key_package : List Nat
deriving DecidableEq

/-- Result row of `get_first_message_by_folder_and_user` (struct
`GroupMessageEntity` in `db.rs`). -/
structure GroupMessageEntity where
  message_id : Nat
  folder_id : Nat
  user_email : String
  payload : List Nat
  application_payload : List Nat
deriving DecidableEq

/-- The relational state of the DS database: the tables `users`, `folders`,
`folders_users`, `pending_group_messages`, `application_messages` and
`key_packages` (§6.3), plus the auto-increment counter that MySQL uses for
`pending_group_messages.message_id`. -/
structure DbState where
  users : List String
  folders : List Nat
  folders_users : List (Nat × String)
  pending_group_messages : List PendingGroupMessageEntity
  application_messages : List ApplicationMessageRow
  key_packages : List KeyPackageEntity
  next_message_id : Nat
deriving DecidableEq

/-- `db.rs` `list_pending_messages_by_folder_and_user`: SELECT * FROM
pending_group_messages WHERE user_email = ? AND folder_id = ?. -/
def list_pending_messages_by_folder_and_user (folder_id : Nat) (user_email : String)
    (s : DbState) : List PendingGroupMessageEntity :=
  s.pending_group_messages.filter
    (fun m => m.user_email == user_email && m.folder_id == folder_id)

/-- `db.rs` `count_pending_messages_for_folder_and_user`: SELECT COUNT(*) FROM
pending_group_messages WHERE user_email = ? AND folder_id = ?. -/
def count_pending_messages_for_folder_and_user (folder_id : Nat) (user_email : String)
    (s : DbState) : Nat :=
  (list_pending_messages_by_folder_and_user folder_id user_email s).length

/-- `db.rs` `list_users_by_folder`: SELECT user_email FROM folders_users WHERE
folder_id = ?. -/
def list_users_by_folder (folder_id : Nat) (s : DbState) : List String :=
  (s.folders_users.filter (fun r => r.1 == folder_id)).map (fun r => r.2)

/-- The insertion loop of `insert_message_transaction` (`db.rs` lines 496-518):
for every member of the folder other than the sender, INSERT INTO
pending_group_messages(user_email, folder_id, payload, creator), collecting the
auto-generated message ids in iteration order. -/
def insert_pending_loop (sender_email : String) (folder_id : Nat) (payload : List Nat) :
    List String → DbState → DbState × List Nat
  | [], s => (s, [])
  | user :: rest, s =>
    if user = sender_email then
      insert_pending_loop sender_email folder_id payload rest s
    else
      let row : PendingGroupMessageEntity :=
        ⟨s.next_message_id, folder_id, user, payload, sender_email⟩
      let s1 := { s with
        pending_group_messages := s.pending_group_messages ++ [row],
        next_message_id := s.next_message_id + 1 }
      let res := insert_pending_loop sender_email folder_id payload rest s1
      (res.1, s.next_message_id :: res.2)

/-- `db.rs` `insert_message_transaction`: count the pending messages of the
sender in the folder; if zero, insert one pending message per member other
than the sender and return the member list and the generated message ids;
otherwise return the pending count as the conflict error (the Rust value
`Err(Ok(count))`).  DB transport errors (`Err(Err(e))`) cannot occur in the
model. -/
def insert_message_transaction (sender_email : String) (folder_id : Nat)
    (payload : List Nat) (s : DbState) :
    Except Nat (DbState × List String × List Nat) :=
  let pending_msgs := count_pending_messages_for_folder_and_user folder_id sender_email s
  if pending_msgs = 0 then
    let users := list_users_by_folder folder_id s
    let res := insert_pending_loop sender_email folder_id payload users s
    Except.ok (res.1, users, res.2)
  else
    Except.error pending_msgs

/-- The responses of `try_publish_proposal` in `server.rs` that are reachable
in the model: 200 with the generated message ids, or 409 Conflict when the
sender still has pending messages in the folder. -/
inductive ProposalResponse where
  | ok (message_ids : List Nat)
  | conflict
deriving DecidableEq

/-- `server.rs` `try_publish_proposal` (POST /folders/id/proposals), after
authentication resolved the client certificate to the registered user
`sender_email`: it calls `db::insert_message` directly — there is no per-folder
membership check in the handler — and maps the conflict error to 409. -/
def try_publish_proposal (sender_email : String) (folder_id : Nat) (payload : List Nat)
    (s : DbState) : DbState × ProposalResponse :=
  match insert_message_transaction sender_email folder_id payload s with
  | Except.ok (s1, _users, message_ids) => (s1, ProposalResponse.ok message_ids)
  | Except.error _n => (s, ProposalResponse.conflict)

/-- The pending rows that one `publish_proposal` call creates: one row per
listed recipient, with consecutive message ids starting at `i`. -/
def mkPendingRows (sender_email : String) (folder_id : Nat) (payload : List Nat) :
    Nat → List String → List PendingGroupMessageEntity
  | _, [] => []
  | i, user :: rest =>
    ⟨i, folder_id, user, payload, sender_email⟩ ::
      mkPendingRows sender_email folder_id payload (i + 1) rest

/-- Consecutive ids `i, i+1, ..., i+n-1`. -/
def idsFrom : Nat → Nat → List Nat
  | _, 0 => []
  | i, n + 1 => i :: idsFrom (i + 1) n

/-- The WHERE clause of the DELETE in `db.rs` `delete_message`: message_id = ?
AND user_email = ? AND folder_id = ?. -/
def ack_delete_pred (message_id : Nat) (user_email : String) (folder_id : Nat)
    (m : PendingGroupMessageEntity) : Bool :=
  m.message_id == message_id && m.user_email == user_email && m.folder_id == folder_id

/-- `db.rs` `delete_message` (lines 580-607): in one transaction, read the
pending row of the recipient for the folder with the smallest `message_id`
(ORDER BY message_id ASC LIMIT 1); `none` models the `RowNotFound` error when
the queue is empty.  When the smallest id is below the requested one the
function commits and returns `false` without deleting anything; otherwise it
runs DELETE with the requested `(message_id, user_email, folder_id)` and
returns `true` regardless of how many rows that DELETE affected. -/
def delete_message (message_id : Nat) (user_email : String) (folder_id : Nat)
    (s : DbState) : Option (DbState × Bool) :=
  match (list_pending_messages_by_folder_and_user folder_id user_email s).argmin
      (fun m => m.message_id) with
  | none => none
  | some first =>
    if first.message_id < message_id then
      some (s, false)
    else
      some ({ s with pending_group_messages :=
        (s.pending_group_messages.filter
          (fun m => !(ack_delete_pred message_id user_email folder_id m))) }, true)

/-- `db.rs` `get_first_message_by_folder_and_user` (lines 639-672): select the
pending row with the smallest `message_id` for the recipient and folder
(`none` models the propagated `RowNotFound` when there is none), then look up
its `application_messages` row by `message_id`; `some none` models the
Ok(None) returned when that row is missing. -/
def get_first_message_by_folder_and_user (folder_id : Nat) (user_email : String)
    (s : DbState) : Option (Option GroupMessageEntity) :=
  match (list_pending_messages_by_folder_and_user folder_id user_email s).argmin
      (fun m => m.message_id) with
  | none => none
  | some pending =>
    match s.application_messages.find? (fun a => a.message_id == pending.message_id) with
    | none => some none
    | some app =>
      some (some ⟨pending.message_id, pending.folder_id, pending.user_email,
        pending.payload, app.payload⟩)

/-- The responses of `get_pending_proposal` in `server.rs`: 200 with the
message, 429 RetryAfter, or 404 NotFound. -/
inductive GetProposalResponse where
  | ok (msg : GroupMessageEntity)
  | retryAfter
  | notFound
deriving DecidableEq

/-- `server.rs` `get_pending_proposal` (GET /folders/id/proposals) after
authentication: maps the db result to the HTTP response. -/
def get_pending_proposal (folder_id : Nat) (user_email : String) (s : DbState) :
    GetProposalResponse :=
  match get_first_message_by_folder_and_user folder_id user_email s with
  | some (some msg) => GetProposalResponse.ok msg
  | some none => GetProposalResponse.retryAfter
  | none => GetProposalResponse.notFound

/-- A concrete state for the queue theorems: recipient b has pending messages
1 and 2 in folder 1, both created by a, and an application row for message 1. -/
def ackState : DbState :=
  { users := ["a", "b"]
    folders := [1]
    folders_users := [(1, "a"), (1, "b")]
    pending_group_messages :=
      [⟨1, 1, "b", [4], "a"⟩, ⟨2, 1, "b", [4], "a"⟩]
    application_messages := [⟨1, [9]⟩]
    key_packages := []
    next_message_id := 3 }

/-- A state where recipient b has the single pending message 5 in folder 1. -/
def ackGapState : DbState :=
  { users := ["a", "b"]
    folders := [1]
    folders_users := [(1, "a"), (1, "b")]
    pending_group_messages := [⟨5, 1, "b", [4], "a"⟩]
    application_messages := []
    key_packages := []
    next_message_id := 6 }

/-- The db error kinds reachable in the model: `rowNotFound` (sqlx
RowNotFound, surfaced as 404) and `other` (any other database error,
surfaced as 500). -/
inductive DbError where
  | rowNotFound
  | other
deriving DecidableEq

deriving instance DecidableEq for Except

/-- The multi-row INSERT INTO application_messages(message_id, payload) of
`db.rs` `insert_application_message`, row by row; `message_id` is the primary
key, so a duplicate key makes the statement fail with a generic database
error (never RowNotFound). -/
def insertAppRows (payload : List Nat) :
    List Nat → List ApplicationMessageRow → Except DbError (List ApplicationMessageRow)
  | [], app => Except.ok app
  | mid :: rest, app =>
    if app.any (fun a => a.message_id == mid) then
      Except.error DbError.other
    else
      insertAppRows payload rest (app ++ [⟨mid, payload⟩])

/-- `db.rs` `insert_application_message` (lines 738-776): SELECT the pending
rows with the given folder id whose `user_email` equals the sender and whose
`message_id` is in the list (note: the WHERE clause uses the recipient column
`user_email`, not `creator`), then INSERT one application_messages row per
supplied message id — without comparing the number of selected rows with the
length of the list — and return the recipients of the selected rows.  An
INSERT failure aborts before commit, so the error path keeps the original
state.  (An empty id list, which in the source yields malformed SQL and a
generic 500, is modelled as a trivially successful insert; on no input does
either behaviour produce RowNotFound.) -/
def insert_application_message (message_ids : List Nat) (sender_email : String)
    (folder_id : Nat) (payload : List Nat) (s : DbState) :
    Except DbError (DbState × List String) :=
  let pending_messages := s.pending_group_messages.filter
    (fun m => m.folder_id == folder_id && m.user_email == sender_email &&
      message_ids.contains m.message_id)
  match insertAppRows payload message_ids s.application_messages with
  | Except.error e => Except.error e
  | Except.ok rows =>
    Except.ok ({ s with application_messages := rows },
      pending_messages.map (fun m => m.user_email))

/-- A state where a is registered but not a member of folder 1; b is the only
member. -/
def nonMemberState : DbState :=
  { users := ["a", "b"]
    folders := [1]
    folders_users := [(1, "b")]
    pending_group_messages := []
    application_messages := []
    key_packages := []
    next_message_id := 0 }

/-- `db.rs` `list_users_for_folder_transaction` (join of folders, folders_users
and users, filtered by the folder id and the given emails), returning the
emails of the given users that are members of the folder. -/
def list_users_for_folder_transaction (user_emails : List String) (folder_id : Nat)
    (s : DbState) : List String :=
  if s.folders.contains folder_id then
    ((s.folders_users.filter (fun r => r.1 == folder_id && s.users.contains r.2 &&
      user_emails.contains r.2)).map (fun r => r.2))
  else []

/-- `db.rs` `insert_folders_to_users`: INSERT INTO folders_users(folder_id,
user_email) one row per given email. -/
def insert_folders_to_users (folder_id : Nat) (user_emails : List String)
    (s : DbState) : DbState :=
  { s with folders_users := s.folders_users ++ user_emails.map (fun u => (folder_id, u)) }

/-- `db.rs` `insert_folder_users_relations` (lines 278-330): resolve which of
the given users are already members (`is_owner`); reject with RowNotFound when
none is or the owner is not among them; INSERT the missing memberships FIRST
and only then call `insert_message_transaction` for the proposal, inside the
same transaction — so the freshly added members are already visible to the
member listing that fans the proposal out.  The pending-conflict path returns
Ok(([], None)) before commit, rolling the transaction back to the original
state. -/
def insert_folder_users_relations (folder_id : Nat) (owner_email : String)
    (user_emails : List String) (proposal : Option (List Nat)) (s : DbState) :
    Except DbError (DbState × List String × Option (List Nat)) :=
  let is_owner := list_users_for_folder_transaction user_emails folder_id s
  if is_owner.isEmpty || !(is_owner.contains owner_email) then
    Except.error DbError.rowNotFound
  else
    let to_add := user_emails.filter (fun u => !(is_owner.contains u))
    let s1 := insert_folders_to_users folder_id to_add s
    match proposal with
    | some payload =>
      match insert_message_transaction owner_email folder_id payload s1 with
      | Except.error _count => Except.ok (s, ([], none))
      | Except.ok (s2, _users, message_ids) =>
        Except.ok (s2, (is_owner, some message_ids))
    | none => Except.ok (s1, (is_owner, some []))

/-- A state where o is the only member of folder 1 and b is a registered
non-member, about to be invited. -/
def shareState : DbState :=
  { users := ["o", "b"]
    folders := [1]
    folders_users := [(1, "o")]
    pending_group_messages := []
    application_messages := []
    key_packages := []
    next_message_id := 0 }

/-- `db.rs` `consume_key_package` (lines 702-736): the source first queries the
membership of the requestor and the owner in the folder, but checks the result
only for a database ERROR — an empty member list is Ok([]) and passes — so the
query does not gate the fetch.  Then the key package of the owner with the
smallest id is selected (ORDER BY key_package_id ASC LIMIT 1; `none` models
RowNotFound when there is none) and deleted. -/
def consume_key_package (user_email requestor : String) (folder_id : Nat)
    (s : DbState) : Option (DbState × KeyPackageEntity) :=
  let _users_for_folder :=
    list_users_for_folder_transaction [requestor, user_email] folder_id s
  match (s.key_packages.filter (fun k => k.user_email == user_email)).argmin
      (fun k => k.key_package_id) with
  | none => none
  | some kp =>
    some ({ s with key_packages :=
      (s.key_packages.filter (fun k => !(k.key_package_id == kp.key_package_id))) }, kp)

/-- A state where r is the only member of folder 1 and the non-member o has
one published key package. -/
def harvestState : DbState :=
  { users := ["r", "o"]
    folders := [1]
    folders_users := [(1, "r")]
    pending_group_messages := []
    application_messages := []
    key_packages := [⟨1, "o", [5]⟩]
    next_message_id := 0 }

/-- `db.rs` `count_users_for_folder`: SELECT COUNT(*) FROM folders_users WHERE
folder_id = ?. -/
def count_users_for_folder (folder_id : Nat) (s : DbState) : Nat :=
  (s.folders_users.filter (fun r => r.1 == folder_id)).length

/-- `db.rs` `remove_user_from_folder` (lines 71-111), one transaction: DELETE
the (folder_id, email) membership row, DELETE the pending messages of this
user for this folder (`delete_all_messages_by_user_and_folder`), count the
remaining memberships of the folder, and when the count is zero also DELETE
the folder row. -/
def remove_user_from_folder (folder_id : Nat) (email : String) (s : DbState) : DbState :=
  let s1 := { s with folders_users :=
    (s.folders_users.filter (fun r => !(r.1 == folder_id && r.2 == email))) }
  let s2 := { s1 with pending_group_messages :=
    (s1.pending_group_messages.filter
      (fun m => !(m.user_email == email && m.folder_id == folder_id))) }
  if count_users_for_folder folder_id s2 = 0 then
    { s2 with folders := s2.folders.filter (fun f => !(f == folder_id)) }
  else s2

/-- Invariant I2 of the design document: every folder row has at least one
membership row. -/
def membership_inv (s : DbState) : Prop :=
  ∀ f ∈ s.folders, ∃ r ∈ s.folders_users, r.1 = f

instance membership_inv_decidable (s : DbState) : Decidable (membership_inv s) :=
  inferInstanceAs (Decidable (∀ f ∈ s.folders, ∃ r ∈ s.folders_users, r.1 = f))

/-- Error kinds of the object store surfaced to `storage.rs`: conditional-put
failures (`precondition`, `alreadyExists`) and any other transport failure
(`other`, surfaced as 500). -/
inductive StoreError where
  | precondition
  | alreadyExists
  | other
deriving DecidableEq

/-- An object held by the store: a location, its bytes and its current opaque
generation token (standing for the etag/version pair; at least one of the two
is always defined, §3). -/
structure StoredObject where
  location : String
  bytes : List Nat
  token : Nat
deriving DecidableEq

/-- The object store state: the objects plus a fresh-token counter. -/
structure ObjectStore where
  objects : List StoredObject
  next_token : Nat
deriving DecidableEq

/-- The put preconditions of the object store (§4.3). -/
inductive PutMode where
  | create
  | update (parent_etag : Option Nat) (parent_version : Option Nat)
deriving DecidableEq

/-- Modelled from the spec: the object_store crate backing `storage.rs` is
outside this repository (§6 treats it as an external collaborator).  §4.3
gives its contract: put with precondition `Create` fails with AlreadyExists
when the object exists; `Update{etag?, version?}` succeeds only against the
current token of the object (the etag when supplied, otherwise the version)
and fails with Precondition otherwise. -/
def put_opts (store : ObjectStore) (location : String) (payload : List Nat)
    (mode : PutMode) : Except StoreError (ObjectStore × Nat) :=
  match mode with
  | PutMode.create =>
    if store.objects.any (fun o => o.location == location) then
      Except.error StoreError.alreadyExists
    else
      Except.ok (⟨store.objects ++ [⟨location, payload, store.next_token⟩],
        store.next_token + 1⟩, store.next_token)
  | PutMode.update parent_etag parent_version =>
    match store.objects.find? (fun o => o.location == location) with
    | none => Except.error StoreError.precondition
    | some o =>
      if parent_etag.getD (parent_version.getD (o.token + 1)) = o.token then
        Except.ok (⟨store.objects.map (fun x =>
          if x.location == location then ⟨location, payload, store.next_token⟩ else x),
          store.next_token + 1⟩, store.next_token)
      else Except.error StoreError.precondition

/-- Modelled from the spec: the unconditional put of the object_store crate,
used by `storage.rs` for the file object — overwrite when present, create
otherwise. -/
def put_plain (store : ObjectStore) (location : String) (payload : List Nat) :
    ObjectStore :=
  if store.objects.any (fun o => o.location == location) then
    ⟨store.objects.map (fun x =>
        if x.location == location then ⟨location, payload, store.next_token⟩ else x),
      store.next_token + 1⟩
  else
    ⟨store.objects ++ [⟨location, payload, store.next_token⟩], store.next_token + 1⟩

/-- `storage.rs` `get_location_for_file`: "/folder_id/file_id". -/
def get_location_for_file (folder_id : Nat) (file_id : String) : String :=
  "/" ++ toString folder_id ++ "/" ++ file_id

/-- `storage.rs` `METADATA_FILE_NAME`. -/
def METADATA_FILE_NAME : String := "metadata"

/-- `storage.rs` `is_metadata_file_name`. -/
def is_metadata_file_name (name : String) : Bool := name == METADATA_FILE_NAME

/-- `storage.rs` `get_location_for_metadata_file`. -/
def get_location_for_metadata_file (folder_id : Nat) : String :=
  get_location_for_file folder_id METADATA_FILE_NAME

/-- The input of `storage.rs` `write` (struct `WriteInput`; the source stores
a whole FolderEntity whose only field is `folder_id`). -/
structure WriteInput where
  folder_id : Nat
  file_id : String
  file_to_write : Option (List Nat)
  metadata_file : List Nat
  parent_etag : Option Nat
  parent_version : Option Nat
deriving DecidableEq

/-- The metadata put of `storage.rs` `write` (lines 161-186): put with mode
`Update{parent_etag, parent_version}` when a parent etag or version was
supplied, `Create` otherwise. -/
def metadata_put (store : ObjectStore) (w : WriteInput) :
    Except StoreError (ObjectStore × Nat) :=
  if w.parent_etag.isSome || w.parent_version.isSome then
    put_opts store (get_location_for_metadata_file w.folder_id) w.metadata_file
      (PutMode.update w.parent_etag w.parent_version)
  else
    put_opts store (get_location_for_metadata_file w.folder_id) w.metadata_file
      PutMode.create

/-- `storage.rs` `write` (lines 152-202): put the metadata object first, under
its precondition; the question-mark operator aborts on failure, so the file
object is written (with an unconditional put) only after the metadata put
succeeded.  Returns the new metadata token. -/
def write (store : ObjectStore) (w : WriteInput) : Except StoreError (ObjectStore × Nat) :=
  match metadata_put store w with
  | Except.error e => Except.error e
  | Except.ok (store1, token) =>
    match w.file_to_write with
    | some file =>
      Except.ok (put_plain store1 (get_location_for_file w.folder_id w.file_id) file, token)
    | none => Except.ok (store1, token)

/-- The responses of `upload_file` in `server.rs`. -/
inductive UploadResponse where
  | created (token : Nat)
  | badRequest
  | conflict
  | internalServerError
deriving DecidableEq

/-- `server.rs` `upload_file` (POST /folders/id/files/file_id, lines
1164-1222) after authentication and the folder ACL lookup: reject the
reserved metadata file name, run `storage::write`, and map Precondition and
AlreadyExists failures to 409 Conflict and any other failure to 500. -/
def upload_file (folder_id : Nat) (file_id : String) (file : List Nat)
    (metadata : List Nat) (parent_etag parent_version : Option Nat)
    (store : ObjectStore) : ObjectStore × UploadResponse :=
  if is_metadata_file_name file_id then (store, UploadResponse.badRequest)
  else
    match write store ⟨folder_id, file_id, some file, metadata, parent_etag,
        parent_version⟩ with
    | Except.error StoreError.precondition => (store, UploadResponse.conflict)
    | Except.error StoreError.alreadyExists => (store, UploadResponse.conflict)
    | Except.error StoreError.other => (store, UploadResponse.internalServerError)
    | Except.ok (store1, token) => (store1, UploadResponse.created token)

/-- A store holding only the metadata object of folder 1 at token 0. -/
def storeW : ObjectStore :=
  { objects := [⟨"/1/metadata", [0], 0⟩], next_token := 1 }

/-! ## Theorems -/

theorem insert_pending_loop_eq (sender_email : String) (folder_id : Nat)
    (payload : List Nat) :
    ∀ (users : List String) (s : DbState),
      insert_pending_loop sender_email folder_id payload users s =
        ({ s with
            pending_group_messages := s.pending_group_messages ++
              mkPendingRows sender_email folder_id payload s.next_message_id
                (users.filter (fun u => u ≠ sender_email)),
            next_message_id := s.next_message_id +
              (users.filter (fun u => u ≠ sender_email)).length },
          idsFrom s.next_message_id (users.filter (fun u => u ≠ sender_email)).length) := by
  intro users
  induction users with
  | nil =>
    intro s
    simp [insert_pending_loop, mkPendingRows, idsFrom]
  | cons user rest ih =>
    intro s
    by_cases h : user = sender_email
    · simp [insert_pending_loop, h, ih]
    · have hf : (user :: rest).filter (fun u => u ≠ sender_email) =
          user :: rest.filter (fun u => u ≠ sender_email) := by
        simp [List.filter_cons, h]
      rw [insert_pending_loop, if_neg h, hf]
      simp only [ih, mkPendingRows, idsFrom, List.length_cons]
      refine Prod.ext ?_ rfl
      simp [List.append_assoc, Nat.add_comm, Nat.add_assoc, Nat.add_left_comm]

/-- C1: `publish_proposal` (POST /folders/id/proposals, `insert_message`)
succeeds if and only if the pending-message count of the sender for the folder
is zero; on success it inserts, in one transaction, exactly one pending message
with the given payload and `creator = sender` for every folder member other
than the sender and returns their message ids; with a positive count it
returns the count as the conflict error and inserts nothing. -/
theorem publish_proposal_pending_gate (sender_email : String) (folder_id : Nat)
    (payload : List Nat) (s : DbState) :
    ((∃ r, insert_message_transaction sender_email folder_id payload s = Except.ok r) ↔
      count_pending_messages_for_folder_and_user folder_id sender_email s = 0) ∧
    insert_message_transaction sender_email folder_id payload s =
      (if count_pending_messages_for_folder_and_user folder_id sender_email s = 0 then
        Except.ok
          ({ s with
              pending_group_messages := s.pending_group_messages ++
                mkPendingRows sender_email folder_id payload s.next_message_id
                  ((list_users_by_folder folder_id s).filter (fun u => u ≠ sender_email)),
              next_message_id := s.next_message_id +
                ((list_users_by_folder folder_id s).filter (fun u => u ≠ sender_email)).length },
            list_users_by_folder folder_id s,
            idsFrom s.next_message_id
              ((list_users_by_folder folder_id s).filter (fun u => u ≠ sender_email)).length)
      else
        Except.error (count_pending_messages_for_folder_and_user folder_id sender_email s)) := by
  have heq : insert_message_transaction sender_email folder_id payload s =
      (if count_pending_messages_for_folder_and_user folder_id sender_email s = 0 then
        Except.ok
          ({ s with
              pending_group_messages := s.pending_group_messages ++
                mkPendingRows sender_email folder_id payload s.next_message_id
                  ((list_users_by_folder folder_id s).filter (fun u => u ≠ sender_email)),
              next_message_id := s.next_message_id +
                ((list_users_by_folder folder_id s).filter (fun u => u ≠ sender_email)).length },
            list_users_by_folder folder_id s,
            idsFrom s.next_message_id
              ((list_users_by_folder folder_id s).filter (fun u => u ≠ sender_email)).length)
      else
        Except.error (count_pending_messages_for_folder_and_user folder_id sender_email s)) := by
    by_cases h : count_pending_messages_for_folder_and_user folder_id sender_email s = 0
    · simp [insert_message_transaction, h, insert_pending_loop_eq]
    · simp [insert_message_transaction, h]
  refine ⟨⟨?_, ?_⟩, heq⟩
  · rintro ⟨r, hr⟩
    by_contra h
    rw [heq, if_neg h] at hr
    exact absurd hr (by simp)
  · intro h
    rw [heq, if_pos h]
    exact ⟨_, rfl⟩

/-- C6: `get_first` returns NotFound exactly when the recipient has no pending
message in the folder; when the smallest-id pending message has no
application_messages row it returns RetryAfter; and when that row exists it
returns exactly the message id, folder id, proposal payload and application
payload of the smallest-id pending message. -/
theorem get_pending_proposal_spec (folder_id : Nat) (user_email : String) (s : DbState) :
    (get_pending_proposal folder_id user_email s = GetProposalResponse.notFound ↔
      list_pending_messages_by_folder_and_user folder_id user_email s = []) ∧
    ∀ first,
      (list_pending_messages_by_folder_and_user folder_id user_email s).argmin
          (fun m => m.message_id) = some first →
      first ∈ list_pending_messages_by_folder_and_user folder_id user_email s ∧
      (∀ x ∈ list_pending_messages_by_folder_and_user folder_id user_email s,
        first.message_id ≤ x.message_id) ∧
      (s.application_messages.find? (fun a => a.message_id == first.message_id) = none →
        get_pending_proposal folder_id user_email s = GetProposalResponse.retryAfter) ∧
      (∀ app, s.application_messages.find? (fun a => a.message_id == first.message_id) =
          some app →
        get_pending_proposal folder_id user_email s = GetProposalResponse.ok
          ⟨first.message_id, first.folder_id, first.user_email, first.payload,
            app.payload⟩) := by
  constructor
  · constructor
    · intro hnf
      cases hm : (list_pending_messages_by_folder_and_user folder_id user_email s).argmin
          (fun m => m.message_id) with
      | none => exact List.argmin_eq_none.mp hm
      | some m =>
        exfalso
        cases hf : s.application_messages.find? (fun a => a.message_id == m.message_id) with
        | none =>
          simp [get_pending_proposal, get_first_message_by_folder_and_user, hm, hf] at hnf
        | some app =>
          simp [get_pending_proposal, get_first_message_by_folder_and_user, hm, hf] at hnf
    · intro hnil
      have hm : (list_pending_messages_by_folder_and_user folder_id user_email s).argmin
          (fun m => m.message_id) = none := List.argmin_eq_none.mpr hnil
      simp [get_pending_proposal, get_first_message_by_folder_and_user, hm]
  · intro first hm
    refine ⟨List.argmin_mem (Option.mem_def.mpr hm), ?_, ?_, ?_⟩
    · intro x hx
      exact List.le_of_mem_argmin hx (Option.mem_def.mpr hm)
    · intro hf
      simp [get_pending_proposal, get_first_message_by_folder_and_user, hm, hf]
    · intro app hf
      simp [get_pending_proposal, get_first_message_by_folder_and_user, hm, hf]

/-- Witness for C6 at `ackState`: the smallest pending message of b in folder 1
is message 1 and its application row exists, so the endpoint returns it. -/
theorem get_pending_proposal_spec_witness :
    get_pending_proposal 1 "b" ackState = GetProposalResponse.ok ⟨1, 1, "b", [4], [9]⟩ :=
  ((get_pending_proposal_spec 1 "b" ackState).2 ⟨1, 1, "b", [4], "a"⟩ (by decide)).2.2.2
    ⟨1, [9]⟩ (by decide)

/-- C5 counterexample: with pending messages 1 and 2 for b in folder 1, acking
message 2 finds smallest id 1, which is not greater than 2, so the claim as
stated predicts that the row is deleted and `Ok(true)` returned; the code
instead takes the `first.message_id < message_id` branch, deletes nothing and
returns `Ok(false)`. -/
theorem ack_claim_inequality_cex :
    delete_message 2 "b" 1 ackState = some (ackState, false) ∧
    delete_message 2 "b" 1 ackState ≠
      some ({ ackState with pending_group_messages := [⟨1, 1, "b", [4], "a"⟩] }, true) := by
  constructor
  · decide
  · decide

/-- C5 (amended): `ack` reads the smallest pending message id for the
recipient and folder; if that smallest id is LESS THAN the requested id it
returns `Ok(false)` (surfaced as 400, out-of-order ack: older messages must be
acked first) and deletes nothing; otherwise it runs the DELETE for the
requested row and returns `Ok(true)`. -/
theorem ack_first_gate (message_id : Nat) (user_email : String) (folder_id : Nat)
    (s : DbState) (first : PendingGroupMessageEntity)
    (h : (list_pending_messages_by_folder_and_user folder_id user_email s).argmin
      (fun m => m.message_id) = some first) :
    first ∈ list_pending_messages_by_folder_and_user folder_id user_email s ∧
    (∀ x ∈ list_pending_messages_by_folder_and_user folder_id user_email s,
      first.message_id ≤ x.message_id) ∧
    (first.message_id < message_id →
      delete_message message_id user_email folder_id s = some (s, false)) ∧
    (message_id ≤ first.message_id →
      delete_message message_id user_email folder_id s =
        some ({ s with pending_group_messages :=
          (s.pending_group_messages.filter
            (fun m => !(ack_delete_pred message_id user_email folder_id m))) }, true)) := by
  refine ⟨List.argmin_mem (Option.mem_def.mpr h), ?_, ?_, ?_⟩
  · intro x hx
    exact List.le_of_mem_argmin hx (Option.mem_def.mpr h)
  · intro hlt
    simp [delete_message, h, hlt]
  · intro hle
    simp [delete_message, h, Nat.not_lt.mpr hle]

/-- Witness for C5 at `ackState`: the smallest pending id for b in folder 1 is
1, and acking message 2 is refused with `Ok(false)` while the state is kept. -/
theorem ack_first_gate_witness :
    (list_pending_messages_by_folder_and_user 1 "b" ackState).argmin
      (fun m => m.message_id) = some ⟨1, 1, "b", [4], "a"⟩ ∧
    delete_message 2 "b" 1 ackState = some (ackState, false) :=
  ⟨by decide,
    (ack_first_gate 2 "b" 1 ackState ⟨1, 1, "b", [4], "a"⟩ (by decide)).2.2.1 (by decide)⟩

/-- C10 counterexample: at `ackGapState` the queue of b in folder 1 is
non-empty with smallest id 5; the requested id 7 is greater than 5 and no row
with id 7 exists, so the claim as stated predicts `Ok(true)` with nothing
deleted; the code returns `Ok(false)` instead. -/
theorem ack_silent_success_cex :
    delete_message 7 "b" 1 ackGapState = some (ackGapState, false) ∧
    delete_message 7 "b" 1 ackGapState ≠ some (ackGapState, true) := by
  constructor
  · decide
  · decide

/-- C10 (amended): when the queue of the recipient for the folder is non-empty
and the requested message id is strictly BELOW the smallest pending id (so no
row with that id exists for this recipient and folder), the DELETE statement
affects zero rows — the state is unchanged — yet `delete_message` still
returns `Ok(true)`, surfaced as HTTP 200. -/
theorem ack_below_first_silent_success (message_id : Nat) (user_email : String)
    (folder_id : Nat) (s : DbState) (first : PendingGroupMessageEntity)
    (h : (list_pending_messages_by_folder_and_user folder_id user_email s).argmin
      (fun m => m.message_id) = some first)
    (hlt : message_id < first.message_id) :
    delete_message message_id user_email folder_id s = some (s, true) := by
  have hkeep : ∀ m ∈ s.pending_group_messages,
      (!(ack_delete_pred message_id user_email folder_id m)) = true := by
    intro m hm
    by_cases hc : ack_delete_pred message_id user_email folder_id m = true
    · exfalso
      have hprops := hc
      simp only [ack_delete_pred, Bool.and_eq_true, beq_iff_eq] at hprops
      have hmemf : m ∈ list_pending_messages_by_folder_and_user folder_id user_email s := by
        refine List.mem_filter.mpr ⟨hm, ?_⟩
        simp [hprops.1.2, hprops.2]
      have hle : first.message_id ≤ m.message_id :=
        List.le_of_mem_argmin hmemf (Option.mem_def.mpr h)
      omega
    · simp [hc]
  have hfilter : s.pending_group_messages.filter
      (fun m => !(ack_delete_pred message_id user_email folder_id m)) =
      s.pending_group_messages := List.filter_eq_self.mpr hkeep
  have hnlt : ¬ first.message_id < message_id := by omega
  simp only [delete_message, h, if_neg hnlt]
  rw [hfilter]

/-- Witness for C10 at `ackGapState`: acking id 3, below the smallest pending
id 5, leaves the state unchanged and still reports success. -/
theorem ack_below_first_silent_success_witness :
    delete_message 3 "b" 1 ackGapState = some (ackGapState, true) :=
  ack_below_first_silent_success 3 "b" 1 ackGapState ⟨5, 1, "b", [4], "a"⟩
    (by decide) (by decide)

theorem insertAppRows_ok (payload : List Nat) :
    ∀ (ids : List Nat) (app app2 : List ApplicationMessageRow),
      insertAppRows payload ids app = Except.ok app2 →
      app2 = app ++ ids.map (fun mid => ⟨mid, payload⟩) := by
  intro ids
  induction ids with
  | nil =>
    intro app app2 h
    simp only [insertAppRows, Except.ok.injEq] at h
    simp [h.symm]
  | cons mid rest ih =>
    intro app app2 h
    simp only [insertAppRows] at h
    by_cases hd : app.any (fun a => a.message_id == mid)
    · rw [if_pos hd] at h
      exact absurd h (by simp)
    · rw [if_neg hd] at h
      have hres := ih (app ++ [⟨mid, payload⟩]) app2 h
      simp [hres, List.append_assoc]

theorem insertAppRows_ne_rnf (payload : List Nat) :
    ∀ (ids : List Nat) (app : List ApplicationMessageRow),
      insertAppRows payload ids app ≠ Except.error DbError.rowNotFound := by
  intro ids
  induction ids with
  | nil =>
    intro app h
    simp [insertAppRows] at h
  | cons mid rest ih =>
    intro app h
    simp only [insertAppRows] at h
    by_cases hd : app.any (fun a => a.message_id == mid)
    · rw [if_pos hd] at h
      exact absurd h (by simp)
    · rw [if_neg hd] at h
      exact ih _ h

/-- C3 counterexample: in `ackGapState` the pending row 5 of folder 1 has
creator a, so the select described by the claim (folder 1, creator = a,
message_id in [5, 6]) finds one row while the supplied list has two entries;
the claim then predicts NotFound with nothing inserted, but the code returns
Ok, inserts an application_messages row for both supplied ids, and never
produces RowNotFound on this path. -/
theorem insert_application_message_cex :
    ((ackGapState.pending_group_messages.filter
      (fun m => m.folder_id == 1 && m.creator == "a" &&
        (([5, 6] : List Nat).contains m.message_id))).length ≠
          ([5, 6] : List Nat).length) ∧
    insert_application_message [5, 6] "a" 1 [9] ackGapState =
      Except.ok ({ ackGapState with application_messages := [⟨5, [9]⟩, ⟨6, [9]⟩] }, []) ∧
    insert_application_message [5, 6] "a" 1 [9] ackGapState ≠
      Except.error DbError.rowNotFound := by
  refine ⟨by decide, by decide, by decide⟩

/-- C3 (amended): `publish_application_payload` selects the pending rows of
the folder whose RECIPIENT (`user_email` column) equals the sender and whose
message id is in the supplied list; it performs no count comparison and never
returns NotFound: whenever the insert succeeds it has added exactly one
ApplicationMessage row per supplied message id, left the pending table
unchanged, and returned the recipients of the selected rows. -/
theorem insert_application_message_spec (message_ids : List Nat) (sender_email : String)
    (folder_id : Nat) (payload : List Nat) (s : DbState) :
    insert_application_message message_ids sender_email folder_id payload s ≠
      Except.error DbError.rowNotFound ∧
    ∀ s1 recipients,
      insert_application_message message_ids sender_email folder_id payload s =
        Except.ok (s1, recipients) →
      recipients = ((s.pending_group_messages.filter
        (fun m => m.folder_id == folder_id && m.user_email == sender_email &&
          message_ids.contains m.message_id)).map (fun m => m.user_email)) ∧
      s1.application_messages = s.application_messages ++
        message_ids.map (fun mid => ⟨mid, payload⟩) ∧
      s1.pending_group_messages = s.pending_group_messages := by
  constructor
  · cases hr : insertAppRows payload message_ids s.application_messages with
    | error e =>
      intro h
      have he : e = DbError.rowNotFound := by
        simp [insert_application_message, hr] at h
        exact h
      exact insertAppRows_ne_rnf payload message_ids s.application_messages (he ▸ hr)
    | ok rows =>
      intro h
      simp [insert_application_message, hr] at h
  · intro s1 recipients h
    cases hr : insertAppRows payload message_ids s.application_messages with
    | error e => simp [insert_application_message, hr] at h
    | ok rows =>
      simp only [insert_application_message, hr] at h
      have hX := Except.ok.inj h
      have hs : { s with application_messages := rows } = s1 := congrArg Prod.fst hX
      have hrec := congrArg Prod.snd hX
      subst hs
      subst hrec
      exact ⟨rfl, insertAppRows_ok payload message_ids s.application_messages rows hr, rfl⟩

/-- Witness for C3 at `ackGapState`: patching message 5 as its creator-sender b
would select nothing, but as the recipient b it selects row 5; the call
succeeds, appends the application row and reports recipient b. -/
theorem insert_application_message_spec_witness :
    insert_application_message [5] "b" 1 [2] ackGapState =
      Except.ok ({ ackGapState with application_messages := [⟨5, [2]⟩] }, ["b"]) ∧
    ((["b"] : List String) = ((ackGapState.pending_group_messages.filter
      (fun m => m.folder_id == 1 && m.user_email == "b" &&
        (([5] : List Nat).contains m.message_id))).map (fun m => m.user_email)) ∧
    ({ ackGapState with application_messages := [⟨5, [2]⟩] }).application_messages =
      ackGapState.application_messages ++ ([5] : List Nat).map (fun mid => ⟨mid, [2]⟩) ∧
    ({ ackGapState with application_messages := [⟨5, [2]⟩] }).pending_group_messages =
      ackGapState.pending_group_messages) :=
  ⟨by decide,
    (insert_application_message_spec [5] "b" 1 [2] ackGapState).2
      { ackGapState with application_messages := [⟨5, [2]⟩] } ["b"] (by decide)⟩

/-- C2 counterexample: the authenticated user a is not a member of folder 1,
yet `try_publish_proposal` returns 200 with a message id and inserts a pending
row for member b — the handler has no per-folder authorization check, so the
call is neither rejected nor free of inserts. -/
theorem publish_proposal_no_acl_cex :
    ("a" ∉ list_users_by_folder 1 nonMemberState) ∧
    try_publish_proposal "a" 1 [7] nonMemberState =
      ({ nonMemberState with
          pending_group_messages := [⟨0, 1, "b", [7], "a"⟩],
          next_message_id := 1 }, ProposalResponse.ok [0]) ∧
    (try_publish_proposal "a" 1 [7] nonMemberState).1.pending_group_messages ≠
      nonMemberState.pending_group_messages := by
  refine ⟨by decide, by decide, by decide⟩

/-- C2 (amended): `try_publish_proposal` performs no per-folder membership
check on the sender: every authenticated sender who is NOT a member of the
folder and has no pending messages there succeeds, and one PendingMessage row
with creator = sender is inserted for every member of the folder. -/
theorem publish_proposal_no_acl (sender_email : String) (folder_id : Nat)
    (payload : List Nat) (s : DbState)
    (hmem : sender_email ∉ list_users_by_folder folder_id s)
    (hcnt : count_pending_messages_for_folder_and_user folder_id sender_email s = 0) :
    try_publish_proposal sender_email folder_id payload s =
      ({ s with
          pending_group_messages := s.pending_group_messages ++
            mkPendingRows sender_email folder_id payload s.next_message_id
              (list_users_by_folder folder_id s),
          next_message_id := s.next_message_id +
            (list_users_by_folder folder_id s).length },
        ProposalResponse.ok
          (idsFrom s.next_message_id (list_users_by_folder folder_id s).length)) := by
  have hall : ∀ a ∈ list_users_by_folder folder_id s, ¬ a = sender_email := by
    intro a ha he
    exact hmem (he ▸ ha)
  have hfilter : List.filter (fun u => !decide (u = sender_email))
      (list_users_by_folder folder_id s) = list_users_by_folder folder_id s := by
    apply List.filter_eq_self.mpr
    intro a ha
    simpa using hall a ha
  simp [try_publish_proposal, insert_message_transaction, hcnt, insert_pending_loop_eq,
    hfilter, hall]

/-- Witness for C2 at `nonMemberState`: non-member a publishes into folder 1
and the only member b receives the pending message. -/
theorem publish_proposal_no_acl_witness :
    ("a" ∉ list_users_by_folder 1 nonMemberState) ∧
    count_pending_messages_for_folder_and_user 1 "a" nonMemberState = 0 ∧
    try_publish_proposal "a" 1 [7] nonMemberState =
      ({ nonMemberState with
          pending_group_messages := nonMemberState.pending_group_messages ++
            mkPendingRows "a" 1 [7] nonMemberState.next_message_id
              (list_users_by_folder 1 nonMemberState),
          next_message_id := nonMemberState.next_message_id +
            (list_users_by_folder 1 nonMemberState).length },
        ProposalResponse.ok
          (idsFrom nonMemberState.next_message_id
            (list_users_by_folder 1 nonMemberState).length)) :=
  ⟨by decide, by decide, publish_proposal_no_acl "a" 1 [7] nonMemberState
    (by decide) (by decide)⟩

/-- C4, evaluation at the failing input: sharing folder 1 with invitee b and a
proposal (the argument list [b, o] is what `v2_share_folder` passes) commits a
state in which the NEW member b holds the pending row for the very add-self
proposal — the membership insert precedes the proposal insert inside the
transaction, in contradiction with the claim (and with the code comment at
`db.rs` line 314). -/
theorem share_folder_proposal_reaches_invitee :
    insert_folder_users_relations 1 "o" ["b", "o"] (some [3]) shareState =
      Except.ok ({ shareState with
          folders_users := [(1, "o"), (1, "b")],
          pending_group_messages := [⟨0, 1, "b", [3], "o"⟩],
          next_message_id := 1 }, (["o"], some [0])) ∧
    ((insert_folder_users_relations 1 "o" ["b", "o"] (some [3]) shareState).toOption.any
      (fun r => r.1.pending_group_messages.any (fun m => m.user_email == "b")) = true) := by
  refine ⟨by decide, by decide⟩

/-- C7, evaluation at the failing input: the owner o is not a member of folder
1, yet `consume_key_package` returns the key package of o and deletes it — the
claim (and scenario S7 of the design document) require NotFound with no
deletion, but the membership check in the source can never fire because an
empty query result is not an error. -/
theorem consume_key_package_no_member_gate :
    ("o" ∉ list_users_by_folder 1 harvestState) ∧
    consume_key_package "o" "r" 1 harvestState =
      some ({ harvestState with key_packages := [] }, ⟨1, "o", [5]⟩) := by
  refine ⟨by decide, by decide⟩

theorem remove_user_from_folder_eq (folder_id : Nat) (email : String) (s : DbState) :
    remove_user_from_folder folder_id email s =
      (if ((s.folders_users.filter (fun r => !(r.1 == folder_id && r.2 == email))).filter
          (fun r => r.1 == folder_id)).length = 0 then
        { s with
          folders_users :=
            (s.folders_users.filter (fun r => !(r.1 == folder_id && r.2 == email))),
          pending_group_messages := (s.pending_group_messages.filter
            (fun m => !(m.user_email == email && m.folder_id == folder_id))),
          folders := s.folders.filter (fun f => !(f == folder_id)) }
      else
        { s with
          folders_users :=
            (s.folders_users.filter (fun r => !(r.1 == folder_id && r.2 == email))),
          pending_group_messages := (s.pending_group_messages.filter
            (fun m => !(m.user_email == email && m.folder_id == folder_id))) }) := rfl

/-- C9: `remove_self` deletes the (folder_id, actor) membership row and the
pending messages of the actor for that folder in one transaction; exactly when
the remaining membership count of the folder is zero it also deletes the
folder row, so invariant I2 — every existing folder has at least one
membership row — is preserved. -/
theorem remove_self_preserves_membership_inv (folder_id : Nat) (email : String)
    (s : DbState) (hinv : membership_inv s) :
    (remove_user_from_folder folder_id email s).folders_users =
      (s.folders_users.filter (fun r => !(r.1 == folder_id && r.2 == email))) ∧
    (remove_user_from_folder folder_id email s).pending_group_messages =
      (s.pending_group_messages.filter
        (fun m => !(m.user_email == email && m.folder_id == folder_id))) ∧
    (folder_id ∈ (remove_user_from_folder folder_id email s).folders ↔
      folder_id ∈ s.folders ∧
        ((s.folders_users.filter (fun r => !(r.1 == folder_id && r.2 == email))).filter
          (fun r => r.1 == folder_id)).length ≠ 0) ∧
    membership_inv (remove_user_from_folder folder_id email s) := by
  by_cases h0 : ((s.folders_users.filter (fun r => !(r.1 == folder_id && r.2 == email))).filter
      (fun r => r.1 == folder_id)).length = 0
  · rw [remove_user_from_folder_eq, if_pos h0]
    refine ⟨rfl, rfl, ?_, ?_⟩
    · constructor
      · intro hmem
        have hp := (List.mem_filter.mp hmem).2
        simp at hp
      · rintro ⟨-, hcnt⟩
        exact absurd h0 hcnt
    · intro f hf
      have hf2 := List.mem_filter.mp hf
      have hfne : f ≠ folder_id := by simpa using hf2.2
      obtain ⟨r, hr, hr1⟩ := hinv f hf2.1
      refine ⟨r, List.mem_filter.mpr ⟨hr, ?_⟩, hr1⟩
      simp [hr1, hfne]
  · rw [remove_user_from_folder_eq, if_neg h0]
    refine ⟨rfl, rfl, ?_, ?_⟩
    · constructor
      · intro hmem
        exact ⟨hmem, h0⟩
      · rintro ⟨hmem, -⟩
        exact hmem
    · intro f hf
      by_cases hfe : f = folder_id
      · subst hfe
        have hne : ((s.folders_users.filter
            (fun r => !(r.1 == f && r.2 == email))).filter
            (fun r => r.1 == f)) ≠ [] := by
          intro hnil
          rw [hnil] at h0
          simp at h0
        obtain ⟨r, hr⟩ := List.exists_mem_of_ne_nil _ hne
        have hr2 := List.mem_filter.mp hr
        exact ⟨r, hr2.1, by simpa using hr2.2⟩
      · obtain ⟨r, hr, hr1⟩ := hinv f hf
        refine ⟨r, List.mem_filter.mpr ⟨hr, ?_⟩, hr1⟩
        simp [hr1, hfe]

/-- Witness for C9: a leaves folder 1 of `ackState`; the invariant holds
before and after the removal. -/
theorem remove_self_preserves_membership_inv_witness :
    membership_inv ackState ∧
    membership_inv (remove_user_from_folder 1 "a" ackState) :=
  ⟨by decide, (remove_self_preserves_membership_inv 1 "a" ackState (by decide)).2.2.2⟩

/-- C8: when the metadata put fails its Create or Update precondition
(Precondition or AlreadyExists), the combined upload returns 409 Conflict with
the object store unchanged — in particular the file object is not written; and
whenever `write` succeeds, the metadata put succeeded, so the file put is
attempted only after the metadata put succeeds. -/
theorem upload_file_metadata_first (folder_id : Nat) (file_id : String)
    (file metadata : List Nat) (parent_etag parent_version : Option Nat)
    (store : ObjectStore) :
    (∀ e,
      metadata_put store ⟨folder_id, file_id, some file, metadata, parent_etag,
        parent_version⟩ = Except.error e →
      (e = StoreError.precondition ∨ e = StoreError.alreadyExists) →
      is_metadata_file_name file_id = false →
      upload_file folder_id file_id file metadata parent_etag parent_version store =
        (store, UploadResponse.conflict)) ∧
    (∀ r,
      write store ⟨folder_id, file_id, some file, metadata, parent_etag,
        parent_version⟩ = Except.ok r →
      ∃ p, metadata_put store ⟨folder_id, file_id, some file, metadata, parent_etag,
        parent_version⟩ = Except.ok p) := by
  constructor
  · intro e he hcases hname
    rcases hcases with h | h <;> subst h <;>
      simp [upload_file, hname, write, he]
  · intro r hr
    cases hp : metadata_put store ⟨folder_id, file_id, some file, metadata, parent_etag,
        parent_version⟩ with
    | error e => simp [write, hp] at hr
    | ok p => exact ⟨p, rfl⟩

/-- Witness for C8 at `storeW`: an upload carrying the stale parent etag 5
fails the metadata Update precondition and is answered with Conflict, the
store left untouched. -/
theorem upload_file_metadata_first_witness :
    metadata_put storeW ⟨1, "f", some [1], [2], some 5, none⟩ =
      Except.error StoreError.precondition ∧
    upload_file 1 "f" [1] [2] (some 5) none storeW = (storeW, UploadResponse.conflict) :=
  ⟨by rfl,
    (upload_file_metadata_first 1 "f" [1] [2] (some 5) none storeW).1
      StoreError.precondition (by rfl) (Or.inl rfl) (by rfl)⟩
